import Mathlib

/-!
A shallow embedding of the synchronization layer in `src/threads/synch.c`
(counting semaphores, locks with recursive priority donation, and condition
variables), together with theorems that settle the specification's claims
against it.

Threads and locks live in external tables owned by the scheduler; the
embedding represents them by identifiers into those tables.  Machine-level
concurrency is out of scope: every operation of `synch.c` runs with
interrupts disabled for its full extent, so each operation is modelled as an
atomic state transformer.
-/

namespace Synch

/-- Thread identifier, an index into the scheduler's thread table. -/
abbrev Tid := Nat

/-- Lock identifier, an index into the table of lock objects. -/
abbrev Lid := Nat

/-- Embedding of `struct semaphore`: the count (`unsigned value` in C, hence a
natural number) and the wait queue `waiters` of blocked threads, front first. -/
structure Semaphore where
  value : Nat
  waiters : List Tid
  deriving DecidableEq

/-- Embedding of `struct lock`: the owning thread (or none) and the underlying
semaphore. -/
structure Lock where
  holder : Option Tid
  semaphore : Semaphore
  deriving DecidableEq

/-- The fields of `struct thread` that `synch.c` reads and writes: the
effective priority, the base priority `origin_priority`, the list `donations`
of donor threads (linked through `d_elem` in C), and `wait_on_lock`, the lock
this thread is blocked trying to acquire. -/
structure Thread where
  priority : Int
  origin_priority : Int
  donations : List Tid
  wait_on_lock : Option Lid
  deriving DecidableEq

/-- The kernel state visible to `synch.c`: the thread table and the lock
table. -/
structure KState where
  threads : Tid → Thread
  locks : Lid → Lock

/-- Replaces the record of thread `t`. -/
def setThread (s : KState) (t : Tid) (th : Thread) : KState :=
  { s with threads := Function.update s.threads t th }

/-- Writes `t->priority = p`. -/
def setPriority (s : KState) (t : Tid) (p : Int) : KState :=
  setThread s t { s.threads t with priority := p }

/-- Replaces `t->donations`. -/
def setDonations (s : KState) (t : Tid) (d : List Tid) : KState :=
  setThread s t { s.threads t with donations := d }

/-- Writes `t->wait_on_lock`. -/
def setWaitOnLock (s : KState) (t : Tid) (w : Option Lid) : KState :=
  setThread s t { s.threads t with wait_on_lock := w }

/-- Replaces the record of lock `l`. -/
def setLock (s : KState) (l : Lid) (lk : Lock) : KState :=
  { s with locks := Function.update s.locks l lk }

/-- Modelled from the spec: the ordered-list container (`lib/kernel/list.c`,
which is not under `src/`) provides `list_insert_ordered`, placing the new
element before the first element `y` for which `less x y` holds. -/
def list_insert_ordered (less : α → α → Bool) (x : α) : List α → List α
  | [] => [x]
  | y :: ys => if less x y then x :: y :: ys else y :: list_insert_ordered less x ys

/-- Modelled from the spec: the container's stable `list_sort` by comparator,
modelled as stable insertion sort built on `list_insert_ordered`. -/
def list_sort (less : α → α → Bool) : List α → List α
  | [] => []
  | y :: ys => list_insert_ordered less y (list_sort less ys)

/-- Modelled from the spec: `cmp_priority` is defined in `threads/thread.c`,
which is not under `src/`; the spec orders wait queues by current effective
priority, descending, so the comparator holds exactly when the first thread's
priority is strictly higher.  `pri` reads a thread's current priority. -/
def cmp_priority (pri : Tid → Int) (a b : Tid) : Bool :=
  decide (pri b < pri a)

/-- Embedding of `cmp_priority_donation` (synch.c:401): compares two donor
threads by current effective priority, `a->priority > b->priority`, read
through the current state. -/
def cmp_priority_donation (s : KState) (a b : Tid) : Bool :=
  decide ((s.threads b).priority < (s.threads a).priority)

/-- Embedding of `sema_try_down` (synch.c:90): decrements and succeeds only
when `value > 0`; otherwise fails, leaving the state untouched. -/
def sema_try_down (sema : Semaphore) : Bool × Semaphore :=
  if 0 < sema.value then (true, { sema with value := sema.value - 1 })
  else (false, sema)

/-- Result of `sema_up`: the new semaphore, the thread passed to
`thread_unblock` (if any), and the unconditional `thread_preempt` request. -/
structure SemaUpOut where
  sema : Semaphore
  woken : Option Tid
  preempt : Bool
  deriving DecidableEq

/-- Embedding of `sema_up` (synch.c:114): if the wait queue is non-empty it is
first re-sorted by current priority (`list_sort` with `cmp_priority`) and the
front (highest-priority) waiter is popped and unblocked; `value` is always
incremented afterwards and `thread_preempt` is always requested. -/
def sema_up (pri : Tid → Int) (sema : Semaphore) : SemaUpOut :=
  if sema.waiters = [] then
    { sema := { sema with value := sema.value + 1 }, woken := none, preempt := true }
  else
    match list_sort (cmp_priority pri) sema.waiters with
    | [] => { sema := { sema with value := sema.value + 1 }, woken := none, preempt := true }
    | w :: rest =>
        { sema := { value := sema.value + 1, waiters := rest },
          woken := some w, preempt := true }

/-- Embedding of the `sema_down` loop (synch.c:72-81) from the calling
thread's point of view.  The thread observes the semaphore; while `value == 0`
it inserts itself into `waiters` ordered by `cmp_priority` and blocks; while
it is blocked other threads may change the semaphore arbitrarily, so each
resumption presents the next state from `resumes`.  The first component
collects the semaphore state at each block (showing the ordered insertion);
the second is `some` of the final state (with `value` decremented once) if the
loop exited before `resumes` ran out, and `none` if the thread is still
blocked. -/
def sema_down_run (pri : Tid → Int) (t : Tid) :
    Semaphore → List Semaphore → List Semaphore × Option Semaphore
  | sema, resumes =>
    if sema.value = 0 then
      match resumes with
      | [] =>
          ([{ sema with waiters := list_insert_ordered (cmp_priority pri) t sema.waiters }],
           none)
      | r :: rs =>
          ({ sema with waiters := list_insert_ordered (cmp_priority pri) t sema.waiters } ::
             (sema_down_run pri t r rs).1,
           (sema_down_run pri t r rs).2)
    else ([], some { sema with value := sema.value - 1 })

/-- One completed scheduler step against a semaphore, for the counting
invariant.  `down` mirrors the loop `while (sema->value == 0)` of `sema_down`:
a thread finding the value zero blocks and completes nothing; otherwise it
decrements.  `tryDown` mirrors `sema_try_down`'s `if (sema->value > 0)`.
`up` mirrors `sema_up`'s unconditional increment. -/
inductive SemaOp where
  | up
  | down
  | tryDown
  deriving DecidableEq

/-- The counting view of a semaphore: its value (as an integer, so that
non-negativity is a real statement) and the numbers of completed downs and
ups. -/
structure Counter where
  value : Int
  downs : Nat
  ups : Nat
  deriving DecidableEq

/-- Executes one operation against the counting view (see `SemaOp`). -/
def sema_op_step (c : Counter) : SemaOp → Counter
  | .up => { c with value := c.value + 1, ups := c.ups + 1 }
  | .down =>
      if c.value = 0 then c
      else { c with value := c.value - 1, downs := c.downs + 1 }
  | .tryDown =>
      if 0 < c.value then { c with value := c.value - 1, downs := c.downs + 1 }
      else c

/-- Runs a sequence of semaphore operations from initial value `init`. -/
def sema_run (init : Nat) (ops : List SemaOp) : Counter :=
  ops.foldl sema_op_step { value := (init : Int), downs := 0, ups := 0 }

/-- Embedding of `lock_try_acquire` (synch.c:237): `sema_try_down` on the
lock's semaphore; on success the holder becomes the calling thread. -/
def lock_try_acquire (s : KState) (lid : Lid) (cur : Tid) : Bool × KState :=
  let r := sema_try_down (s.locks lid).semaphore
  let s1 := setLock s lid { s.locks lid with semaphore := r.2 }
  if r.1 then (true, setLock s1 lid { s1.locks lid with holder := some cur })
  else (false, s1)

/-- The priority computed by the body of `priority_donation`
(synch.c:442-453): the base priority when `donations` is empty, otherwise the
head donor's priority if it exceeds the base priority (`if
(t->origin_priority < highest->priority)`), else the base priority. -/
def donated_priority (s : KState) (t : Tid) : Int :=
  match (s.threads t).donations with
  | [] => (s.threads t).origin_priority
  | d :: _ =>
      if (s.threads t).origin_priority < (s.threads d).priority
      then (s.threads d).priority
      else (s.threads t).origin_priority

/-- Embedding of `priority_donation` (synch.c:437): writes the recomputed
priority of `t` and, when `t->wait_on_lock` is set, recurses on that lock's
holder.  `fuel` bounds the recursion depth along the `wait_on_lock` chain,
which the kernel guarantees to be finite and acyclic; the C code dereferences
`t->wait_on_lock->holder` unconditionally, so a missing holder (a NULL
dereference in C, impossible under the kernel's invariants) is modelled by
stopping. -/
def priority_donation (fuel : Nat) (s : KState) (t : Tid) : KState :=
  match fuel with
  | 0 => s
  | fuel' + 1 =>
      let s1 := setPriority s t (donated_priority s t)
      match (s.threads t).wait_on_lock with
      | none => s1
      | some l =>
          match (s.locks l).holder with
          | none => s1
          | some h => priority_donation fuel' s1 h

/-- The tail of the blocking chain below `t`: the holder `priority_donation`
recurses on, if any, followed by that holder's own chain. -/
def donation_rest (fuel : Nat) (s : KState) (t : Tid) : List Tid :=
  match (s.threads t).wait_on_lock with
  | none => []
  | some l =>
      match (s.locks l).holder with
      | none => []
      | some h =>
          match fuel with
          | 0 => []
          | fuel' + 1 => t :: donation_rest fuel' s h

/-- The sequence of threads visited by `priority_donation fuel s t`, in
visiting order. -/
def donation_chain (fuel : Nat) (s : KState) (t : Tid) : List Tid :=
  match fuel with
  | 0 => []
  | fuel' + 1 =>
      t ::
        (match (s.threads t).wait_on_lock with
         | none => []
         | some l =>
             match (s.locks l).holder with
             | none => []
             | some h => donation_chain fuel' s h)

/-- The sequential pass `priority_donation` performs over its visiting chain:
each visited thread in turn gets the priority recomputed from the state left
by its predecessors. -/
def donation_pass : KState → List Tid → KState
  | s, [] => s
  | s, u :: rest => donation_pass (setPriority s u (donated_priority s u)) rest

/-- Structural side condition on a visiting chain under which one donation
pass is a fixed point: no thread is revisited, and no visited thread's head
donor is itself visited at or after that thread (the kernel's acyclicity
contract rules such configurations out). -/
def pass_ok : KState → List Tid → Bool
  | _, [] => true
  | s, u :: rest =>
      decide (u ∉ rest) &&
      (match (s.threads u).donations.head? with
       | none => true
       | some d => decide (d ∉ u :: rest)) &&
      pass_ok s rest

/-- The donations that survive a release of `lid` by holder `h`
(synch.c:265-277): every entry whose donor's `wait_on_lock` equals the
released lock is removed (`is_waiter`, synch.c:468), and the remainder is
re-sorted with `cmp_priority_donation`. -/
def release_donations (s : KState) (lid : Lid) (h : Tid) : List Tid :=
  list_sort (cmp_priority_donation s)
    ((s.threads h).donations.filter (fun d => decide ((s.threads d).wait_on_lock ≠ some lid)))

/-- Embedding of `lock_release` (synch.c:256).  Unless in MLFQ mode, the
holder's donations lose every entry tied to this lock and are re-sorted, and
`priority_donation` recomputes the holder's priority; then the holder is
cleared and the underlying semaphore is up'ed.  The second component is the
thread `sema_up` unblocked, if any.  The C code asserts
`lock_held_by_current_thread(lock)`, so a missing holder is unreachable and
modelled as a no-op. -/
def lock_release (fuel : Nat) (mlfqs : Bool) (s : KState) (lid : Lid) :
    KState × Option Tid :=
  match (s.locks lid).holder with
  | none => (s, none)
  | some h =>
      let s1 :=
        if mlfqs then s
        else priority_donation fuel (setDonations s h (release_donations s lid h)) h
      let s2 := setLock s1 lid { s1.locks lid with holder := none }
      let r := sema_up (fun u => (s2.threads u).priority) (s2.locks lid).semaphore
      (setLock s2 lid { s2.locks lid with semaphore := r.sema }, r.woken)

/-- The final statement of `lock_acquire` (synch.c:228),
`lock->holder->wait_on_lock = NULL`: executed on every path, including the
uncontended one where `lock_try_acquire` succeeded and nothing ever set
`wait_on_lock`. -/
def clear_holder_wait (s : KState) (lid : Lid) : KState :=
  match (s.locks lid).holder with
  | none => s
  | some h => setWaitOnLock s h none

/-- Embedding of `lock_acquire` (synch.c:205).  If `lock_try_acquire` fails,
the caller records `wait_on_lock`, and (unless in MLFQ mode) inserts itself
into the holder's donations ordered by `cmp_priority_donation` and runs
`priority_donation` on the holder; it then blocks in `sema_down` until a
release wakes it, after which it becomes the holder.  The interleaving of
other threads during the block is abstracted by the oracle `wake`, mapping the
state at block time to the state observed on resumption.  On every path the
final statement clears the holder's `wait_on_lock`. -/
def lock_acquire (fuel : Nat) (mlfqs : Bool) (wake : KState → KState)
    (s : KState) (lid : Lid) (cur : Tid) : KState :=
  let r := lock_try_acquire s lid cur
  if r.1 then clear_holder_wait r.2 lid
  else
    let sA := setWaitOnLock r.2 cur (some lid)
    let sB :=
      if mlfqs then sA
      else
        match (sA.locks lid).holder with
        | none => sA
        | some hold =>
            priority_donation fuel
              (setDonations sA hold
                (list_insert_ordered (cmp_priority_donation sA) cur
                  ((sA.threads hold).donations))) hold
    let sC := wake sB
    clear_holder_wait (setLock sC lid { sC.locks lid with holder := some cur }) lid

/-- Embedding of `cmp_priority_by_sema` (synch.c:418), the comparator over
condition-variable waiter records (each a private semaphore).  When both
private semaphores have waiters, the C code evaluates `cmp_priority` on the
two front waiters but falls off the end of the function without returning the
result, so the return value on that branch is undefined: modelled as `none`.
The `else` branch returns `false`, modelled as `some false`. -/
def cmp_priority_by_sema (pri : Tid → Int) (a b : Semaphore) : Option Bool :=
  if !a.waiters.isEmpty && !b.waiters.isEmpty then
    let _ := cmp_priority pri (a.waiters.headD 0) (b.waiters.headD 0)
    none
  else some false

/-- The comparator the running code effectively uses: where
`cmp_priority_by_sema` has no defined return value, the machine yields some
unspecified boolean, supplied here by the oracle `g`. -/
def resolved_cmp (pri : Tid → Int) (g : Semaphore → Semaphore → Bool)
    (a b : Semaphore) : Bool :=
  match cmp_priority_by_sema pri a b with
  | some r => r
  | none => g a b

/-- The insertion step of `cond_wait` (synch.c:341-346): a fresh private
semaphore at value 0 with no waiters yet (the caller only blocks on it later)
is inserted into `cond->waiters` with `list_insert_ordered` under
`cmp_priority_by_sema`. -/
def cond_wait_insert (pri : Tid → Int) (g : Semaphore → Semaphore → Bool)
    (waiters : List Semaphore) : List Semaphore :=
  list_insert_ordered (resolved_cmp pri g) { value := 0, waiters := [] } waiters

/-- Embedding of `cond_signal` (synch.c:359): re-sorts `cond->waiters` with
`cmp_priority_by_sema`, then pops the front record and `sema_up`s its private
semaphore.  Returns the remaining waiters and the popped record, if any. -/
def cond_signal (pri : Tid → Int) (g : Semaphore → Semaphore → Bool)
    (waiters : List Semaphore) : List Semaphore × Option Semaphore :=
  match list_sort (resolved_cmp pri g) waiters with
  | [] => ([], none)
  | w :: rest => (rest, some w)

/-- A neutral thread record for building concrete states. -/
def thr0 : Thread :=
  { priority := 0, origin_priority := 0, donations := [], wait_on_lock := none }

/-- A concrete state whose lock 0 is unavailable (semaphore value 0), used to
exercise the failure path of the try operations. -/
def stateTry : KState :=
  { threads := fun _ => thr0,
    locks := fun _ => { holder := none, semaphore := { value := 0, waiters := [] } } }

/-- A concrete state for the donation witness: thread 0 has base priority 10
and the single donor thread 1 of priority 30, and waits on no lock. -/
def stateDon : KState :=
  { threads := fun t =>
      if t = 0 then
        { priority := 10, origin_priority := 10, donations := [1], wait_on_lock := none }
      else if t = 1 then
        { priority := 30, origin_priority := 30, donations := [], wait_on_lock := none }
      else thr0,
    locks := fun _ => { holder := none, semaphore := { value := 1, waiters := [] } } }

/-- A concrete state for the idempotence witness: thread 0 (base 10, donor
thread 2 of priority 30) waits on lock 0 held by thread 1 (base 5, donor
thread 0), a two-step donation chain. -/
def stateChain : KState :=
  { threads := fun t =>
      if t = 0 then
        { priority := 10, origin_priority := 10, donations := [2], wait_on_lock := some 0 }
      else if t = 1 then
        { priority := 5, origin_priority := 5, donations := [0], wait_on_lock := none }
      else if t = 2 then
        { priority := 30, origin_priority := 30, donations := [], wait_on_lock := none }
      else thr0,
    locks := fun l =>
      if l = 0 then { holder := some 1, semaphore := { value := 0, waiters := [0] } }
      else { holder := none, semaphore := { value := 1, waiters := [] } } }

/-- A concrete state for the release witness: lock 0 is held by thread 1
(base priority 10, effective 30) and thread 2 (priority 30) is blocked on it
and is its only donor. -/
def stateRel : KState :=
  { threads := fun t =>
      if t = 1 then
        { priority := 30, origin_priority := 10, donations := [2], wait_on_lock := none }
      else if t = 2 then
        { priority := 30, origin_priority := 30, donations := [], wait_on_lock := some 0 }
      else thr0,
    locks := fun l =>
      if l = 0 then { holder := some 1, semaphore := { value := 0, waiters := [2] } }
      else { holder := none, semaphore := { value := 1, waiters := [] } } }

/-- A concrete state for the acquire witness: lock 0 is free (value 1) and the
acquiring thread 5 starts with a stale `wait_on_lock` pointing at lock 7. -/
def stateAcq : KState :=
  { threads := fun t =>
      if t = 5 then
        { priority := 20, origin_priority := 20, donations := [], wait_on_lock := some 7 }
      else thr0,
    locks := fun _ => { holder := none, semaphore := { value := 1, waiters := [] } } }

/-- Thread priorities for the condition-variable scenario: thread 1 has
priority 10, thread 2 priority 20, thread 3 priority 30. -/
def priCond : Tid → Int := fun t => 10 * t

/-- A waiter record whose private semaphore has the blocked thread 1
(priority 10) on it. -/
def semW1 : Semaphore := { value := 0, waiters := [1] }

/-- A waiter record whose private semaphore has the blocked thread 2
(priority 20) on it. -/
def semW2 : Semaphore := { value := 0, waiters := [2] }

/-- A waiter record whose private semaphore has the blocked thread 3
(priority 30) on it. -/
def semW3 : Semaphore := { value := 0, waiters := [3] }

/-! ## Basic lemmas about the state setters -/

theorem setThread_threads_apply (s : KState) (t : Tid) (th : Thread) (u : Tid) :
    (setThread s t th).threads u = if u = t then th else s.threads u := by
  simp [setThread, Function.update_apply]

@[simp] theorem setThread_locks (s : KState) (t : Tid) (th : Thread) :
    (setThread s t th).locks = s.locks := rfl

@[simp] theorem setPriority_locks (s : KState) (t : Tid) (p : Int) :
    (setPriority s t p).locks = s.locks := rfl

@[simp] theorem setDonations_locks (s : KState) (t : Tid) (d : List Tid) :
    (setDonations s t d).locks = s.locks := rfl

@[simp] theorem setWaitOnLock_locks (s : KState) (t : Tid) (w : Option Lid) :
    (setWaitOnLock s t w).locks = s.locks := rfl

@[simp] theorem setLock_threads (s : KState) (l : Lid) (lk : Lock) :
    (setLock s l lk).threads = s.threads := rfl

theorem setLock_locks_apply (s : KState) (l : Lid) (lk : Lock) (l2 : Lid) :
    (setLock s l lk).locks l2 = if l2 = l then lk else s.locks l2 := by
  simp [setLock, Function.update_apply]

@[simp] theorem setLock_locks_same (s : KState) (l : Lid) (lk : Lock) :
    (setLock s l lk).locks l = lk := by
  simp [setLock_locks_apply]

theorem setLock_locks_ne (s : KState) (l : Lid) (lk : Lock) (l2 : Lid) (h : l2 ≠ l) :
    (setLock s l lk).locks l2 = s.locks l2 := by
  simp [setLock_locks_apply, h]

theorem setLock_self (s : KState) (l : Lid) : setLock s l (s.locks l) = s := by
  show { s with locks := Function.update s.locks l (s.locks l) } = s
  rw [Function.update_eq_self]

@[simp] theorem setPriority_threads_same (s : KState) (t : Tid) (p : Int) :
    (setPriority s t p).threads t = { s.threads t with priority := p } := by
  simp [setPriority, setThread_threads_apply]

theorem setPriority_threads_ne (s : KState) (t : Tid) (p : Int) (u : Tid) (h : u ≠ t) :
    (setPriority s t p).threads u = s.threads u := by
  simp [setPriority, setThread_threads_apply, h]

@[simp] theorem setPriority_donations (s : KState) (t : Tid) (p : Int) (u : Tid) :
    ((setPriority s t p).threads u).donations = (s.threads u).donations := by
  rcases eq_or_ne u t with h | h
  · subst h; simp
  · rw [setPriority_threads_ne s t p u h]

@[simp] theorem setPriority_origin (s : KState) (t : Tid) (p : Int) (u : Tid) :
    ((setPriority s t p).threads u).origin_priority = (s.threads u).origin_priority := by
  rcases eq_or_ne u t with h | h
  · subst h; simp
  · rw [setPriority_threads_ne s t p u h]

@[simp] theorem setPriority_wait_on_lock (s : KState) (t : Tid) (p : Int) (u : Tid) :
    ((setPriority s t p).threads u).wait_on_lock = (s.threads u).wait_on_lock := by
  rcases eq_or_ne u t with h | h
  · subst h; simp
  · rw [setPriority_threads_ne s t p u h]

theorem setPriority_self (s : KState) (t : Tid) :
    setPriority s t ((s.threads t).priority) = s := by
  show setThread s t { s.threads t with priority := (s.threads t).priority } = s
  have h1 : ({ s.threads t with priority := (s.threads t).priority } : Thread) = s.threads t := rfl
  rw [h1]
  show { s with threads := Function.update s.threads t (s.threads t) } = s
  rw [Function.update_eq_self]

@[simp] theorem setDonations_threads_same (s : KState) (t : Tid) (d : List Tid) :
    (setDonations s t d).threads t = { s.threads t with donations := d } := by
  simp [setDonations, setThread_threads_apply]

theorem setDonations_threads_ne (s : KState) (t : Tid) (d : List Tid) (u : Tid) (h : u ≠ t) :
    (setDonations s t d).threads u = s.threads u := by
  simp [setDonations, setThread_threads_apply, h]

@[simp] theorem setWaitOnLock_threads_same (s : KState) (t : Tid) (w : Option Lid) :
    (setWaitOnLock s t w).threads t = { s.threads t with wait_on_lock := w } := by
  simp [setWaitOnLock, setThread_threads_apply]

theorem setWaitOnLock_threads_ne (s : KState) (t : Tid) (w : Option Lid) (u : Tid) (h : u ≠ t) :
    (setWaitOnLock s t w).threads u = s.threads u := by
  simp [setWaitOnLock, setThread_threads_apply, h]

/-! ## Lemmas about the ordered-list container -/

theorem list_insert_ordered_perm (less : α → α → Bool) (x : α) :
    ∀ l : List α, (list_insert_ordered less x l).Perm (x :: l) := by
  intro l
  induction l with
  | nil => simp [list_insert_ordered]
  | cons y ys ih =>
      by_cases h : less x y
      · simp [list_insert_ordered, h]
      · simp only [list_insert_ordered, h, Bool.false_eq_true, if_false]
        exact (List.Perm.cons y ih).trans (List.Perm.swap x y ys)

theorem list_sort_perm (less : α → α → Bool) :
    ∀ l : List α, (list_sort less l).Perm l := by
  intro l
  induction l with
  | nil => simp [list_sort]
  | cons y ys ih =>
      exact (list_insert_ordered_perm less y (list_sort less ys)).trans (List.Perm.cons y ih)

theorem list_insert_ordered_pairwise (pri : α → Int) (x : α) :
    ∀ l : List α, l.Pairwise (fun a b => pri b ≤ pri a) →
      (list_insert_ordered (fun a b => decide (pri b < pri a)) x l).Pairwise
        (fun a b => pri b ≤ pri a) := by
  intro l
  induction l with
  | nil => intro _; simp [list_insert_ordered]
  | cons y ys ih =>
      intro hp
      rw [List.pairwise_cons] at hp
      by_cases h : pri y < pri x
      · simp only [list_insert_ordered, h, decide_True, if_true]
        rw [List.pairwise_cons]
        refine ⟨?_, List.Pairwise.cons hp.1 hp.2⟩
        intro b hb
        rcases List.mem_cons.mp hb with hb2 | hb2
        · subst hb2; exact le_of_lt h
        · exact le_trans (hp.1 b hb2) (le_of_lt h)
      · simp only [list_insert_ordered, h, decide_False, Bool.false_eq_true, if_false]
        rw [List.pairwise_cons]
        refine ⟨?_, ih hp.2⟩
        intro b hb
        have hmem :=
          (list_insert_ordered_perm (fun a b => decide (pri b < pri a)) x ys).mem_iff.mp hb
        rcases List.mem_cons.mp hmem with hb2 | hb2
        · subst hb2; exact le_of_not_lt h
        · exact hp.1 b hb2

theorem list_sort_pairwise (pri : α → Int) :
    ∀ l : List α, (list_sort (fun a b => decide (pri b < pri a)) l).Pairwise
      (fun a b => pri b ≤ pri a) := by
  intro l
  induction l with
  | nil => simp [list_sort]
  | cons y ys ih => exact list_insert_ordered_pairwise pri y _ ih

theorem list_insert_ordered_mem (less : α → α → Bool) (x : α) (l : List α) (u : α) :
    u ∈ list_insert_ordered less x l ↔ u = x ∨ u ∈ l := by
  rw [(list_insert_ordered_perm less x l).mem_iff, List.mem_cons]

theorem list_sort_head_max (pri : α → Int) (l : List α) (w : α) (rest : List α)
    (h : list_sort (fun a b => decide (pri b < pri a)) l = w :: rest) :
    ∀ u ∈ l, pri u ≤ pri w := by
  intro u hu
  have hperm := list_sort_perm (fun a b => decide (pri b < pri a)) l
  have hu2 : u ∈ w :: rest := by
    rw [← h]
    exact hperm.mem_iff.mpr hu
  rcases List.mem_cons.mp hu2 with hu3 | hu3
  · subst hu3; exact le_refl _
  · have hp := list_sort_pairwise pri l
    rw [h, List.pairwise_cons] at hp
    exact hp.1 u hu3

/-! ## The counting invariant (claim C6) -/

theorem sema_op_step_inv (init : Nat) (c : Counter) (op : SemaOp)
    (h1 : c.value = (init : Int) + c.ups - c.downs) (h2 : 0 ≤ c.value) :
    (sema_op_step c op).value =
      (init : Int) + (sema_op_step c op).ups - (sema_op_step c op).downs ∧
      0 ≤ (sema_op_step c op).value := by
  cases op with
  | up =>
      refine ⟨?_, ?_⟩ <;> simp [sema_op_step] <;> omega
  | down =>
      by_cases hv : c.value = 0
      · have hstep : sema_op_step c .down = c := by simp [sema_op_step, hv]
        rw [hstep]; exact ⟨h1, h2⟩
      · have hstep : sema_op_step c .down =
            { c with value := c.value - 1, downs := c.downs + 1 } := by
          simp [sema_op_step, hv]
        rw [hstep]; refine ⟨?_, ?_⟩ <;> simp <;> omega
  | tryDown =>
      by_cases hv : 0 < c.value
      · have hstep : sema_op_step c .tryDown =
            { c with value := c.value - 1, downs := c.downs + 1 } := by
          simp [sema_op_step, hv]
        rw [hstep]; refine ⟨?_, ?_⟩ <;> simp <;> omega
      · have hstep : sema_op_step c .tryDown = c := by simp [sema_op_step, hv]
        rw [hstep]; exact ⟨h1, h2⟩

theorem sema_run_aux (init : Nat) :
    ∀ (ops : List SemaOp) (c : Counter),
      c.value = (init : Int) + c.ups - c.downs → 0 ≤ c.value →
      (ops.foldl sema_op_step c).value =
        (init : Int) + (ops.foldl sema_op_step c).ups - (ops.foldl sema_op_step c).downs ∧
        0 ≤ (ops.foldl sema_op_step c).value := by
  intro ops
  induction ops with
  | nil => intro c h1 h2; exact ⟨h1, h2⟩
  | cons op ops ih =>
      intro c h1 h2
      have h := sema_op_step_inv init c op h1 h2
      exact ih (sema_op_step c op) h.1 h.2

/-- C6: a semaphore's value is always a non-negative integer.  `sema_down`
decrements only after observing a non-zero value (having exited the wait
loop), `sema_try_down` decrements only when the value is positive, and
`sema_up` always increments, so along any sequence of completed operations
the value equals the initial value plus completed ups minus completed downs,
stays non-negative, and hence the number of completed downs never exceeds the
completed ups plus the initial value. -/
theorem sema_counting_invariant (init : Nat) (ops : List SemaOp) :
    (sema_run init ops).value =
      (init : Int) + (sema_run init ops).ups - (sema_run init ops).downs ∧
    0 ≤ (sema_run init ops).value ∧
    ((sema_run init ops).downs : Int) ≤ ((sema_run init ops).ups : Int) + (init : Int) := by
  unfold sema_run
  have h := sema_run_aux init ops { value := (init : Int), downs := 0, ups := 0 }
    (by simp) (by simp)
  obtain ⟨h1, h2⟩ := h
  exact ⟨h1, h2, by omega⟩

/-! ## The try operations (claim C7) -/

/-- C7: `sema_try_down` and `lock_try_acquire` never block and have no side
effects on failure.  When the value is 0, `sema_try_down` returns false and
leaves the semaphore untouched; when the lock's underlying unit is
unavailable, `lock_try_acquire` returns false and leaves the whole state
untouched.  On success the value is decremented (waiters untouched) and, for
`lock_try_acquire`, the holder becomes the calling thread, with no other lock
and no thread modified. -/
theorem try_no_side_effects (sema : Semaphore) (s : KState) (lid : Lid) (cur : Tid) :
    ((sema_try_down sema).1 = false ↔ sema.value = 0) ∧
    (sema.value = 0 → (sema_try_down sema).2 = sema) ∧
    (0 < sema.value →
      (sema_try_down sema).1 = true ∧
      (sema_try_down sema).2.value + 1 = sema.value ∧
      (sema_try_down sema).2.waiters = sema.waiters) ∧
    ((lock_try_acquire s lid cur).1 = false ↔ (s.locks lid).semaphore.value = 0) ∧
    ((s.locks lid).semaphore.value = 0 → (lock_try_acquire s lid cur).2 = s) ∧
    (0 < (s.locks lid).semaphore.value →
      (lock_try_acquire s lid cur).1 = true ∧
      ((lock_try_acquire s lid cur).2.locks lid).holder = some cur ∧
      ((lock_try_acquire s lid cur).2.locks lid).semaphore.value + 1 =
        (s.locks lid).semaphore.value ∧
      ((lock_try_acquire s lid cur).2.locks lid).semaphore.waiters =
        (s.locks lid).semaphore.waiters ∧
      (∀ l2, l2 ≠ lid → (lock_try_acquire s lid cur).2.locks l2 = s.locks l2) ∧
      (lock_try_acquire s lid cur).2.threads = s.threads) := by
  refine ⟨?_, ?_, ?_, ?_, ?_, ?_⟩
  · by_cases hv : 0 < sema.value <;> simp [sema_try_down, hv] <;> omega
  · intro hv
    have hnv : ¬ 0 < sema.value := by omega
    simp [sema_try_down, hnv]
  · intro hv
    have hs : sema_try_down sema = (true, { sema with value := sema.value - 1 }) := by
      simp [sema_try_down, hv]
    rw [hs]
    refine ⟨rfl, ?_, rfl⟩
    simp
    omega
  · by_cases hv : 0 < (s.locks lid).semaphore.value <;>
      simp [lock_try_acquire, sema_try_down, hv] <;> omega
  · intro hv
    have hnv : ¬ 0 < (s.locks lid).semaphore.value := by omega
    have hs : sema_try_down (s.locks lid).semaphore = (false, (s.locks lid).semaphore) := by
      simp [sema_try_down, hnv]
    have hout : lock_try_acquire s lid cur =
        (false, setLock s lid { s.locks lid with semaphore := (s.locks lid).semaphore }) := by
      simp [lock_try_acquire, hs]
    rw [hout]
    exact setLock_self s lid
  · intro hv
    have hs : sema_try_down (s.locks lid).semaphore =
        (true, { (s.locks lid).semaphore with value := (s.locks lid).semaphore.value - 1 }) := by
      simp [sema_try_down, hv]
    refine ⟨?_, ?_, ?_, ?_, ?_, ?_⟩
    · simp [lock_try_acquire, hs]
    · simp [lock_try_acquire, hs, setLock_locks_same]
    · simp only [lock_try_acquire, hs, if_true, setLock_locks_same]
      omega
    · simp [lock_try_acquire, hs, setLock_locks_same]
    · intro l2 h2
      simp only [lock_try_acquire, hs, if_true]
      rw [setLock_locks_ne _ _ _ _ h2, setLock_locks_ne _ _ _ _ h2]
    · simp [lock_try_acquire, hs]

/-- Witness for C7 at concrete inputs: with lock 0 unavailable (`stateTry`),
`lock_try_acquire` leaves the state untouched; with lock 0 free (`stateAcq`),
it makes thread 5 the holder. -/
theorem try_no_side_effects_witness :
    (lock_try_acquire stateTry 0 5).2 = stateTry ∧
    ((lock_try_acquire stateAcq 0 5).2.locks 0).holder = some 5 := by
  constructor
  · exact (try_no_side_effects ⟨0, []⟩ stateTry 0 5).2.2.2.2.1 (by decide)
  · exact (((try_no_side_effects ⟨0, []⟩ stateAcq 0 5).2.2.2.2.2 (by decide)).2).1

/-! ## Waking by current priority (claims C3 and C5) -/

theorem cmp_priority_eq (pri : Tid → Int) :
    cmp_priority pri = fun a b => decide (pri b < pri a) := rfl

theorem sema_up_empty (pri : Tid → Int) (sema : Semaphore) (h : sema.waiters = []) :
    sema_up pri sema =
      { sema := { sema with value := sema.value + 1 }, woken := none, preempt := true } := by
  simp [sema_up, h]

theorem sema_up_nonempty (pri : Tid → Int) (sema : Semaphore) (h : sema.waiters ≠ []) :
    ∃ w rest, list_sort (cmp_priority pri) sema.waiters = w :: rest ∧
      (sema_up pri sema).woken = some w ∧
      (sema_up pri sema).sema = { value := sema.value + 1, waiters := rest } ∧
      (sema_up pri sema).preempt = true := by
  cases hs : list_sort (cmp_priority pri) sema.waiters with
  | nil =>
      exfalso
      have hp := list_sort_perm (cmp_priority pri) sema.waiters
      rw [hs] at hp
      exact h hp.symm.eq_nil
  | cons w rest =>
      refine ⟨w, rest, rfl, ?_, ?_, ?_⟩ <;> simp [sema_up, h, hs]

theorem sema_up_value (pri : Tid → Int) (sema : Semaphore) :
    (sema_up pri sema).sema.value = sema.value + 1 := by
  by_cases h : sema.waiters = []
  · rw [sema_up_empty pri sema h]
  · rcases sema_up_nonempty pri sema h with ⟨w, rest, _, _, hsem, _⟩
    rw [hsem]

theorem sema_up_preempt (pri : Tid → Int) (sema : Semaphore) :
    (sema_up pri sema).preempt = true := by
  by_cases h : sema.waiters = []
  · rw [sema_up_empty pri sema h]
  · rcases sema_up_nonempty pri sema h with ⟨w, rest, _, _, _, hp⟩
    exact hp

/-- C3: for every `sema_up` on a non-empty waiter list, the waiters are
re-sorted by current effective priority and the single waiter with the
highest current priority is removed and made runnable (woken); the value is
always incremented afterwards and a preemption check is always requested.
Consequently successive `sema_up` calls wake waiters in descending order of
their current priorities. -/
theorem sema_up_spec (pri : Tid → Int) (sema : Semaphore) :
    (sema_up pri sema).sema.value = sema.value + 1 ∧
    (sema_up pri sema).preempt = true ∧
    (sema.waiters = [] →
      (sema_up pri sema).woken = none ∧
      (sema_up pri sema).sema.waiters = sema.waiters) ∧
    (sema.waiters ≠ [] →
      ∃ w, (sema_up pri sema).woken = some w ∧
        w ∈ sema.waiters ∧
        (∀ u ∈ sema.waiters, pri u ≤ pri w) ∧
        (w :: (sema_up pri sema).sema.waiters).Perm sema.waiters ∧
        (∀ u ∈ (sema_up pri sema).sema.waiters, pri u ≤ pri w)) ∧
    (∀ w w', (sema_up pri sema).woken = some w →
      (sema_up pri ((sema_up pri sema).sema)).woken = some w' → pri w' ≤ pri w) := by
  refine ⟨sema_up_value pri sema, sema_up_preempt pri sema, ?_, ?_, ?_⟩
  · intro h
    rw [sema_up_empty pri sema h]
    exact ⟨rfl, rfl⟩
  · intro h
    rcases sema_up_nonempty pri sema h with ⟨w, rest, hs, hwk, hsem, _⟩
    have hperm : (w :: rest).Perm sema.waiters := hs ▸ list_sort_perm (cmp_priority pri) sema.waiters
    refine ⟨w, hwk, ?_, ?_, ?_, ?_⟩
    · exact hperm.mem_iff.mp (List.mem_cons_self w rest)
    · intro u hu
      exact list_sort_head_max pri sema.waiters w rest (by rw [← cmp_priority_eq pri]; exact hs) u hu
    · rw [hsem]; exact hperm
    · intro u hu
      rw [hsem] at hu
      have hu2 : u ∈ sema.waiters := hperm.mem_iff.mp (List.mem_cons_of_mem w hu)
      exact list_sort_head_max pri sema.waiters w rest (by rw [← cmp_priority_eq pri]; exact hs) u hu2
  · intro w w' h1 h2
    by_cases h : sema.waiters = []
    · rw [sema_up_empty pri sema h] at h1
      exact absurd h1 (by simp)
    · rcases sema_up_nonempty pri sema h with ⟨w0, rest, hs, hwk, hsem, _⟩
      have hw0 : w0 = w := by rw [hwk] at h1; exact Option.some_injective _ h1
      subst hw0
      rw [hsem] at h2
      by_cases hr : rest = []
      · rw [sema_up_empty pri _ (by simpa using hr)] at h2
        exact absurd h2 (by simp)
      · rcases sema_up_nonempty pri { value := sema.value + 1, waiters := rest }
          (by simpa using hr) with ⟨w1, rest1, hs1, hwk1, _, _⟩
        have hw1 : w1 = w' := by rw [hwk1] at h2; exact Option.some_injective _ h2
        subst hw1
        have hperm : (w0 :: rest).Perm sema.waiters :=
          hs ▸ list_sort_perm (cmp_priority pri) sema.waiters
        have hperm1 : (w1 :: rest1).Perm rest := by
          have hq := list_sort_perm (cmp_priority pri) rest
          rw [show ({ value := sema.value + 1, waiters := rest } : Semaphore).waiters = rest
            from rfl] at hs1
          rw [hs1] at hq
          exact hq
        have hmem : w1 ∈ sema.waiters :=
          hperm.mem_iff.mp (List.mem_cons_of_mem w0 (hperm1.mem_iff.mp (List.mem_cons_self w1 rest1)))
        exact list_sort_head_max pri sema.waiters w0 rest
          (by rw [← cmp_priority_eq pri]; exact hs) w1 hmem

/-- Witness for C3 at a concrete input: waiters `[1, 3, 2]` with priorities
10, 30, 20; `sema_up` wakes thread 3 (the maximum) and increments the value. -/
theorem sema_up_spec_witness :
    (sema_up priCond { value := 0, waiters := [1, 3, 2] }).woken = some 3 ∧
    (sema_up priCond { value := 0, waiters := [1, 3, 2] }).sema.value = 0 + 1 ∧
    (∃ w, (sema_up priCond { value := 0, waiters := [1, 3, 2] }).woken = some w ∧
      w ∈ [1, 3, 2]) := by
  refine ⟨by decide, (sema_up_spec priCond ⟨0, [1, 3, 2]⟩).1, ?_⟩
  obtain ⟨w, hw, hmem, _⟩ := (sema_up_spec priCond ⟨0, [1, 3, 2]⟩).2.2.2.1 (by decide)
  exact ⟨w, hw, hmem⟩

theorem sema_down_run_aux (pri : Tid → Int) (t : Tid) :
    ∀ (resumes : List Semaphore) (sema : Semaphore),
      (sema_down_run pri t sema resumes).1 =
        ((sema :: resumes).takeWhile (fun x => x.value == 0)).map
          (fun x => { x with waiters := list_insert_ordered (cmp_priority pri) t x.waiters }) ∧
      (sema_down_run pri t sema resumes).2 =
        ((sema :: resumes).find? (fun x => x.value != 0)).map
          (fun x => { x with value := x.value - 1 }) := by
  intro resumes
  induction resumes with
  | nil =>
      intro sema
      by_cases h : sema.value = 0
      · have h1 : (sema.value == 0) = true := by simp [h]
        have h2 : (sema.value != 0) = false := by simp [h]
        simp [sema_down_run, h, List.takeWhile, List.find?, h1, h2]
      · have h1 : (sema.value == 0) = false := by simp [h]
        have h2 : (sema.value != 0) = true := by simp [h]
        simp [sema_down_run, h, List.takeWhile, List.find?, h1, h2]
  | cons r rs ih =>
      intro sema
      by_cases h : sema.value = 0
      · have h1 : (sema.value == 0) = true := by simp [h]
        have h2 : (sema.value != 0) = false := by simp [h]
        have hr := ih r
        simp [sema_down_run, h, List.takeWhile, List.find?, h1, h2, hr.1, hr.2]
      · have h1 : (sema.value == 0) = false := by simp [h]
        have h2 : (sema.value != 0) = true := by simp [h]
        simp [sema_down_run, h, List.takeWhile, List.find?, h1, h2]

/-- C5: `sema_down`, observed from the calling thread, loops while the value
is zero, each iteration inserting the caller into the waiters ordered by its
current priority before suspending (the ordered insertion preserves
descending-priority sortedness); on each resumption the loop condition is
re-checked, so the thread exits exactly at the first observed state with a
non-zero value, from which the value is decremented exactly once. -/
theorem sema_down_spec (pri : Tid → Int) (t : Tid) (sema : Semaphore)
    (resumes : List Semaphore) :
    (sema_down_run pri t sema resumes).1 =
      ((sema :: resumes).takeWhile (fun x => x.value == 0)).map
        (fun x => { x with waiters := list_insert_ordered (cmp_priority pri) t x.waiters }) ∧
    (sema_down_run pri t sema resumes).2 =
      ((sema :: resumes).find? (fun x => x.value != 0)).map
        (fun x => { x with value := x.value - 1 }) ∧
    (∀ x : Semaphore, x.waiters.Pairwise (fun a b => pri b ≤ pri a) →
      (list_insert_ordered (cmp_priority pri) t x.waiters).Pairwise
        (fun a b => pri b ≤ pri a)) := by
  refine ⟨(sema_down_run_aux pri t resumes sema).1, (sema_down_run_aux pri t resumes sema).2, ?_⟩
  intro x hx
  rw [cmp_priority_eq]
  exact list_insert_ordered_pairwise pri t x.waiters hx

/-- Witness for C5 at a concrete input: thread 5 blocks on a zero semaphore,
is resumed once with the value still claimed by the queue shape, and exits at
the first non-zero observation with the value decremented once; the ordered
insertion into the waiters of `[7]` stays sorted. -/
theorem sema_down_spec_witness :
    (sema_down_run priCond 5 { value := 0, waiters := [7] }
        [{ value := 2, waiters := [] }]).2 = some { value := 1, waiters := [] } ∧
    (list_insert_ordered (cmp_priority priCond) 5 [7]).Pairwise
      (fun a b => priCond b ≤ priCond a) := by
  constructor
  · rw [(sema_down_spec priCond 5 ⟨0, [7]⟩ [⟨2, []⟩]).2.1]
    decide
  · exact (sema_down_spec priCond 5 ⟨0, [7]⟩ [⟨2, []⟩]).2.2 ⟨0, [7]⟩ (by decide)

/-! ## The condition-variable comparator (claim C8) -/

/-- C8: `cmp_priority_by_sema` returns false exactly when either argument's
private semaphore has an empty waiter list; on the branch where both waiter
lists are non-empty it computes the comparison of the two front waiters but
does not return it — the function has no defined return value there (modelled
as `none`) — so false is the only value it ever actually returns. -/
theorem cmp_priority_by_sema_spec (pri : Tid → Int) (a b : Semaphore) :
    (cmp_priority_by_sema pri a b = some false ↔ (a.waiters = [] ∨ b.waiters = [])) ∧
    (a.waiters ≠ [] → b.waiters ≠ [] → cmp_priority_by_sema pri a b = none) ∧
    (∀ r : Bool, cmp_priority_by_sema pri a b = some r → r = false) := by
  by_cases ha : a.waiters = []
  · simp [cmp_priority_by_sema, List.isEmpty_iff, ha]
  · by_cases hb : b.waiters = []
    · simp [cmp_priority_by_sema, List.isEmpty_iff, ha, hb]
    · simp [cmp_priority_by_sema, List.isEmpty_iff, ha, hb]

/-- Witness for C8 at concrete inputs: against an empty private semaphore the
comparator returns false; with both semaphores occupied (threads 1 and 2
blocked) it has no defined return value. -/
theorem cmp_priority_by_sema_spec_witness :
    cmp_priority_by_sema priCond semW1 { value := 0, waiters := [] } = some false ∧
    cmp_priority_by_sema priCond semW1 semW2 = none := by
  constructor
  · exact (cmp_priority_by_sema_spec priCond semW1 ⟨0, []⟩).1.mpr (Or.inr rfl)
  · exact (cmp_priority_by_sema_spec priCond semW1 semW2).2.1 (by decide) (by decide)

/-! ## Condition-variable waiter ordering (claim C4) -/

/-- C4 fails on the code: at `cond_wait` time the caller's private semaphore
is still empty, so `cmp_priority_by_sema` returns false against every queued
waiter and `list_insert_ordered` appends the new record at the tail — for
every resolution `g` of the comparator's undefined branch — even though the
blocking thread (thread 3, priority 30) outranks the queued threads 1 and 2
(priorities 10, 20).  At `cond_signal` time both waiter lists are non-empty,
so which record is popped depends on the undefined return value: under the
two constant resolutions the signal wakes different threads, and under the
constant-true one it wakes the priority-10 thread while the priority-30
thread keeps waiting. -/
theorem cond_waiter_order_bug :
    cond_wait_insert priCond (fun _ _ => false) [semW1, semW2] =
      [semW1, semW2, { value := 0, waiters := [] }] ∧
    cond_wait_insert priCond (fun _ _ => true) [semW1, semW2] =
      [semW1, semW2, { value := 0, waiters := [] }] ∧
    priCond 1 < priCond 3 ∧ priCond 2 < priCond 3 ∧
    (cond_signal priCond (fun _ _ => true) [semW1, semW3]).2 = some semW1 ∧
    (cond_signal priCond (fun _ _ => false) [semW1, semW3]).2 = some semW3 := by
  decide

/-! ## The donation engine (claims C1 and C9) -/

theorem donation_pass_locks :
    ∀ (c : List Tid) (s : KState), (donation_pass s c).locks = s.locks := by
  intro c
  induction c with
  | nil => intro s; rfl
  | cons u rest ih =>
      intro s
      show (donation_pass (setPriority s u (donated_priority s u)) rest).locks = s.locks
      rw [ih]
      rfl

theorem donation_pass_donations :
    ∀ (c : List Tid) (s : KState) (u : Tid),
      ((donation_pass s c).threads u).donations = (s.threads u).donations := by
  intro c
  induction c with
  | nil => intro s u; rfl
  | cons v rest ih =>
      intro s u
      show ((donation_pass (setPriority s v (donated_priority s v)) rest).threads u).donations =
        (s.threads u).donations
      rw [ih, setPriority_donations]

theorem donation_pass_origin :
    ∀ (c : List Tid) (s : KState) (u : Tid),
      ((donation_pass s c).threads u).origin_priority = (s.threads u).origin_priority := by
  intro c
  induction c with
  | nil => intro s u; rfl
  | cons v rest ih =>
      intro s u
      show ((donation_pass (setPriority s v (donated_priority s v)) rest).threads u).origin_priority =
        (s.threads u).origin_priority
      rw [ih, setPriority_origin]

theorem donation_pass_wait_on_lock :
    ∀ (c : List Tid) (s : KState) (u : Tid),
      ((donation_pass s c).threads u).wait_on_lock = (s.threads u).wait_on_lock := by
  intro c
  induction c with
  | nil => intro s u; rfl
  | cons v rest ih =>
      intro s u
      show ((donation_pass (setPriority s v (donated_priority s v)) rest).threads u).wait_on_lock =
        (s.threads u).wait_on_lock
      rw [ih, setPriority_wait_on_lock]

theorem donation_pass_not_mem :
    ∀ (c : List Tid) (s : KState) (u : Tid), u ∉ c →
      (donation_pass s c).threads u = s.threads u := by
  intro c
  induction c with
  | nil => intro s u _; rfl
  | cons v rest ih =>
      intro s u hu
      rw [List.mem_cons] at hu
      push_neg at hu
      show (donation_pass (setPriority s v (donated_priority s v)) rest).threads u = s.threads u
      rw [ih _ u hu.2, setPriority_threads_ne s v _ u hu.1]

theorem donation_chain_congr :
    ∀ (fuel : Nat) (s s2 : KState) (t : Tid),
      (∀ u, (s.threads u).wait_on_lock = (s2.threads u).wait_on_lock) →
      s.locks = s2.locks →
      donation_chain fuel s t = donation_chain fuel s2 t := by
  intro fuel
  induction fuel with
  | zero => intro s s2 t _ _; rfl
  | succ f ih =>
      intro s s2 t hw hl
      cases hwt : (s.threads t).wait_on_lock with
      | none =>
          have hwt2 : (s2.threads t).wait_on_lock = none := by rw [← hw t]; exact hwt
          simp [donation_chain, hwt, hwt2]
      | some l =>
          have hwt2 : (s2.threads t).wait_on_lock = some l := by rw [← hw t]; exact hwt
          cases hh : (s.locks l).holder with
          | none =>
              have hh2 : (s2.locks l).holder = none := by rw [← hl]; exact hh
              simp [donation_chain, hwt, hwt2, hh, hh2]
          | some h2 =>
              have hh2 : (s2.locks l).holder = some h2 := by rw [← hl]; exact hh
              simp [donation_chain, hwt, hwt2, hh, hh2, ih s s2 h2 hw hl]

theorem donation_chain_setPriority (fuel : Nat) (s : KState) (t : Tid) (p : Int) (v : Tid) :
    donation_chain fuel (setPriority s t p) v = donation_chain fuel s v :=
  donation_chain_congr fuel (setPriority s t p) s v
    (fun u => setPriority_wait_on_lock s t p u) (setPriority_locks s t p)

theorem donation_chain_pass (c : List Tid) (s : KState) (fuel : Nat) (v : Tid) :
    donation_chain fuel (donation_pass s c) v = donation_chain fuel s v :=
  donation_chain_congr fuel (donation_pass s c) s v
    (fun u => donation_pass_wait_on_lock c s u) (donation_pass_locks c s)

theorem priority_donation_eq_pass :
    ∀ (fuel : Nat) (s : KState) (t : Tid),
      priority_donation fuel s t = donation_pass s (donation_chain fuel s t) := by
  intro fuel
  induction fuel with
  | zero => intro s t; rfl
  | succ f ih =>
      intro s t
      cases hwt : (s.threads t).wait_on_lock with
      | none => simp [priority_donation, donation_chain, hwt, donation_pass]
      | some l =>
          cases hh : (s.locks l).holder with
          | none => simp [priority_donation, donation_chain, hwt, hh, donation_pass]
          | some h2 =>
              simp only [priority_donation, donation_chain, hwt, hh]
              rw [ih (setPriority s t (donated_priority s t)) h2]
              rw [donation_chain_setPriority]
              rfl

theorem donation_pass_self_priority (s : KState) (u : Tid) (rest : List Tid) (p : Int)
    (hu : u ∉ rest) :
    ((donation_pass (setPriority s u p) rest).threads u).priority = p := by
  rw [donation_pass_not_mem rest (setPriority s u p) u hu]
  simp

theorem donation_pass_head_priority (s : KState) (u : Tid) (rest : List Tid) (p : Int)
    (hd : ∀ d, (s.threads u).donations.head? = some d → (d ≠ u ∧ d ∉ rest)) :
    donated_priority (donation_pass (setPriority s u p) rest) u = donated_priority s u := by
  unfold donated_priority
  rw [donation_pass_donations, setPriority_donations]
  rw [donation_pass_origin, setPriority_origin]
  cases hdons : (s.threads u).donations with
  | nil => rfl
  | cons d ds =>
      dsimp only
      have hdd := hd d (by rw [hdons]; rfl)
      have h3 : (donation_pass (setPriority s u p) rest).threads d = s.threads d := by
        rw [donation_pass_not_mem rest _ d hdd.2, setPriority_threads_ne s u p d hdd.1]
      rw [h3]

theorem pass_ok_congr :
    ∀ (c : List Tid) (s s2 : KState),
      (∀ u, (s.threads u).donations = (s2.threads u).donations) →
      pass_ok s c = pass_ok s2 c := by
  intro c
  induction c with
  | nil => intro s s2 _; rfl
  | cons u rest ih =>
      intro s s2 hd
      simp only [pass_ok]
      rw [hd u, ih s s2 hd]

theorem donation_pass_idem :
    ∀ (c : List Tid) (s : KState), pass_ok s c = true →
      donation_pass (donation_pass s c) c = donation_pass s c := by
  intro c
  induction c with
  | nil => intro s _; rfl
  | cons u rest ih =>
      intro s hok
      simp only [pass_ok, Bool.and_eq_true, decide_eq_true_eq] at hok
      obtain ⟨⟨hu, hdm⟩, hrest⟩ := hok
      have hd : ∀ d, (s.threads u).donations.head? = some d → (d ≠ u ∧ d ∉ rest) := by
        intro d hdd
        rw [hdd] at hdm
        have hnm : d ∉ u :: rest := of_decide_eq_true hdm
        rw [List.mem_cons] at hnm
        push_neg at hnm
        exact hnm
      show donation_pass
          (setPriority (donation_pass (setPriority s u (donated_priority s u)) rest) u
            (donated_priority (donation_pass (setPriority s u (donated_priority s u)) rest) u))
          rest =
        donation_pass (setPriority s u (donated_priority s u)) rest
      rw [donation_pass_head_priority s u rest (donated_priority s u) hd]
      have hset : setPriority (donation_pass (setPriority s u (donated_priority s u)) rest) u
          (donated_priority s u) =
          donation_pass (setPriority s u (donated_priority s u)) rest := by
        have hp := donation_pass_self_priority s u rest (donated_priority s u) hu
        have h0 := setPriority_self (donation_pass (setPriority s u (donated_priority s u)) rest) u
        rw [hp] at h0
        exact h0
      rw [hset]
      have hok1 : pass_ok (setPriority s u (donated_priority s u)) rest = true := by
        rw [pass_ok_congr rest (setPriority s u (donated_priority s u)) s
          (fun v => setPriority_donations s u (donated_priority s u) v)]
        exact hrest
      exact ih _ hok1

/-- C9: running the donation recomputation twice in succession on the same
thread with no intervening state change yields the same result as running it
once: the whole pass over the (acyclic) blocking chain is a fixed point, so
every affected thread's effective priority is unchanged by the second run. -/
theorem priority_donation_idem (fuel : Nat) (s : KState) (t : Tid)
    (h : pass_ok s (donation_chain fuel s t) = true) :
    priority_donation fuel (priority_donation fuel s t) t = priority_donation fuel s t := by
  have e1 := priority_donation_eq_pass fuel s t
  have e2 := priority_donation_eq_pass fuel (priority_donation fuel s t) t
  have hc : donation_chain fuel (priority_donation fuel s t) t = donation_chain fuel s t := by
    rw [e1]
    exact donation_chain_pass (donation_chain fuel s t) s fuel t
  rw [e2, hc, e1]
  exact donation_pass_idem (donation_chain fuel s t) s h

/-- Witness for C9 at a concrete input: the two-thread blocking chain of
`stateChain` (thread 0 waits on lock 0 held by thread 1), on which a second
donation run leaves the state exactly as the first left it. -/
theorem priority_donation_idem_witness :
    priority_donation 2 (priority_donation 2 stateChain 0) 0 =
      priority_donation 2 stateChain 0 :=
  priority_donation_idem 2 stateChain 0 (by decide)

/-- C1: the donation engine computes, for the starting thread `t`, exactly
the priority the spec prescribes — `origin_priority` when `donations` is
empty, and otherwise `max(origin_priority, p)` where `p` is the priority of
the head (maximum-priority) entry of the sorted donations — writes it to
`t.priority` (undisturbed by the rest of the pass when the blocking chain is
acyclic), and, when `t.wait_on_lock` is set, recurses on that lock's holder,
propagating priority change up the finite blocking chain. -/
theorem priority_donation_spec (fuel : Nat) (s : KState) (t : Tid) :
    ((s.threads t).donations = [] →
      donated_priority s t = (s.threads t).origin_priority) ∧
    (∀ d ds, (s.threads t).donations = d :: ds →
      donated_priority s t = max (s.threads t).origin_priority ((s.threads d).priority)) ∧
    ((donation_chain (fuel + 1) s t).Nodup →
      ((priority_donation (fuel + 1) s t).threads t).priority = donated_priority s t) ∧
    (∀ l hth, (s.threads t).wait_on_lock = some l → (s.locks l).holder = some hth →
      priority_donation (fuel + 1) s t =
        priority_donation fuel (setPriority s t (donated_priority s t)) hth) := by
  refine ⟨?_, ?_, ?_, ?_⟩
  · intro h
    unfold donated_priority
    rw [h]
  · intro d ds h
    unfold donated_priority
    rw [h]
    dsimp only
    by_cases h2 : (s.threads t).origin_priority < (s.threads d).priority
    · rw [if_pos h2, max_eq_right (le_of_lt h2)]
    · rw [if_neg h2, max_eq_left (le_of_not_lt h2)]
  · intro hnd
    rw [priority_donation_eq_pass]
    have hchain : donation_chain (fuel + 1) s t =
        t :: (match (s.threads t).wait_on_lock with
          | none => ([] : List Tid)
          | some l =>
              match (s.locks l).holder with
              | none => []
              | some h2 => donation_chain fuel s h2) := rfl
    rw [hchain] at hnd ⊢
    rw [List.nodup_cons] at hnd
    exact donation_pass_self_priority s t _ (donated_priority s t) hnd.1
  · intro l hth hw hh
    rw [priority_donation_eq_pass (fuel + 1) s t]
    have hchain : donation_chain (fuel + 1) s t = t :: donation_chain fuel s hth := by
      simp [donation_chain, hw, hh]
    rw [hchain]
    show donation_pass (setPriority s t (donated_priority s t)) (donation_chain fuel s hth) =
      priority_donation fuel (setPriority s t (donated_priority s t)) hth
    rw [priority_donation_eq_pass fuel (setPriority s t (donated_priority s t)) hth]
    rw [donation_chain_setPriority]

/-- Witness for C1 at a concrete input: in `stateDon`, thread 0 (base 10) has
the single donor thread 1 (priority 30); the donation run sets thread 0's
priority to the prescribed value max(10, 30) = 30. -/
theorem priority_donation_spec_witness :
    ((priority_donation 1 stateDon 0).threads 0).priority = donated_priority stateDon 0 ∧
    donated_priority stateDon 0 = max 10 30 := by
  constructor
  · exact (priority_donation_spec 0 stateDon 0).2.2.1 (by decide)
  · have h := (priority_donation_spec 0 stateDon 0).2.1 1 [] (by decide)
    rw [h]
    decide

/-! ## Lock release (claim C2) -/

theorem priority_donation_locks (fuel : Nat) (s : KState) (t : Tid) :
    (priority_donation fuel s t).locks = s.locks := by
  rw [priority_donation_eq_pass]
  exact donation_pass_locks _ _

theorem priority_donation_donations (fuel : Nat) (s : KState) (t u : Tid) :
    ((priority_donation fuel s t).threads u).donations = (s.threads u).donations := by
  rw [priority_donation_eq_pass]
  exact donation_pass_donations _ _ _

theorem priority_donation_start_priority (fuel : Nat) (s : KState) (t : Tid)
    (hnd : (donation_chain (fuel + 1) s t).Nodup) :
    ((priority_donation (fuel + 1) s t).threads t).priority = donated_priority s t := by
  rw [priority_donation_eq_pass]
  have hchain : donation_chain (fuel + 1) s t =
      t :: (match (s.threads t).wait_on_lock with
        | none => ([] : List Tid)
        | some l =>
            match (s.locks l).holder with
            | none => []
            | some h2 => donation_chain fuel s h2) := rfl
  rw [hchain] at hnd ⊢
  rw [List.nodup_cons] at hnd
  exact donation_pass_self_priority s t _ (donated_priority s t) hnd.1

theorem donated_priority_nil (s : KState) (t : Tid) (h : (s.threads t).donations = []) :
    donated_priority s t = (s.threads t).origin_priority := by
  unfold donated_priority
  rw [h]

/-- C2: releasing a lock (donation enabled) removes from the holder's
donations exactly the entries whose donor waits on this lock, re-sorts the
remainder, and recomputes the holder's effective priority via the donation
engine (so with no surviving donors the priority reverts to
`origin_priority`); then the holder is cleared and the underlying semaphore
is up'ed (its value incremented). -/
theorem lock_release_spec (fuel : Nat) (s : KState) (lid : Lid) (h : Tid)
    (hh : (s.locks lid).holder = some h)
    (hnd : (donation_chain (fuel + 1)
      (setDonations s h (release_donations s lid h)) h).Nodup) :
    ((lock_release (fuel + 1) false s lid).1.threads h).donations =
      release_donations s lid h ∧
    ((lock_release (fuel + 1) false s lid).1.threads h).priority =
      donated_priority (setDonations s h (release_donations s lid h)) h ∧
    (release_donations s lid h = [] →
      ((lock_release (fuel + 1) false s lid).1.threads h).priority =
        (s.threads h).origin_priority) ∧
    ((lock_release (fuel + 1) false s lid).1.locks lid).holder = none ∧
    ((lock_release (fuel + 1) false s lid).1.locks lid).semaphore.value =
      (s.locks lid).semaphore.value + 1 := by
  set s' := setDonations s h (release_donations s lid h) with hsp
  set S1 := priority_donation (fuel + 1) s' h with hS1
  set S2 := setLock S1 lid { S1.locks lid with holder := none } with hS2
  set R := sema_up (fun u => (S2.threads u).priority) (S2.locks lid).semaphore with hR
  have hout : lock_release (fuel + 1) false s lid =
      (setLock S2 lid { S2.locks lid with semaphore := R.sema }, R.woken) := by
    rw [hR, hS2, hS1, hsp]
    simp [lock_release, hh]
  have hdon : ((lock_release (fuel + 1) false s lid).1.threads h).donations =
      release_donations s lid h := by
    rw [hout]
    show ((setLock S2 lid { S2.locks lid with semaphore := R.sema }).threads h).donations =
      release_donations s lid h
    rw [setLock_threads, hS2, setLock_threads, hS1, priority_donation_donations, hsp]
    simp
  have hpri : ((lock_release (fuel + 1) false s lid).1.threads h).priority =
      donated_priority s' h := by
    rw [hout]
    show ((setLock S2 lid { S2.locks lid with semaphore := R.sema }).threads h).priority =
      donated_priority s' h
    rw [setLock_threads, hS2, setLock_threads, hS1]
    exact priority_donation_start_priority fuel s' h hnd
  refine ⟨hdon, hpri, ?_, ?_, ?_⟩
  · intro hempty
    rw [hpri]
    have hd0 : (s'.threads h).donations = [] := by
      rw [hsp]
      simp [hempty]
    rw [donated_priority_nil s' h hd0]
    rw [hsp]
    simp
  · rw [hout]
    show ((setLock S2 lid { S2.locks lid with semaphore := R.sema }).locks lid).holder = none
    rw [setLock_locks_same]
    show (S2.locks lid).holder = none
    rw [hS2, setLock_locks_same]
  · have hsem : (S2.locks lid).semaphore = (s.locks lid).semaphore := by
      rw [hS2, setLock_locks_same]
      show (S1.locks lid).semaphore = (s.locks lid).semaphore
      rw [hS1, priority_donation_locks, hsp, setDonations_locks]
    rw [hout]
    show ((setLock S2 lid { S2.locks lid with semaphore := R.sema }).locks lid).semaphore.value =
      (s.locks lid).semaphore.value + 1
    rw [setLock_locks_same]
    show R.sema.value = (s.locks lid).semaphore.value + 1
    rw [hR, sema_up_value, hsem]

/-- Witness for C2 at a concrete input: in `stateRel`, thread 1 (base 10,
boosted to 30 by donor thread 2, which waits on lock 0) releases lock 0; the
stale donation is removed, the priority reverts to 10, the holder is cleared
and the semaphore value rises to 1. -/
theorem lock_release_spec_witness :
    ((lock_release 1 false stateRel 0).1.threads 1).donations = [] ∧
    ((lock_release 1 false stateRel 0).1.threads 1).priority = 10 ∧
    ((lock_release 1 false stateRel 0).1.locks 0).holder = none ∧
    ((lock_release 1 false stateRel 0).1.locks 0).semaphore.value = 1 := by
  obtain ⟨h1, h2, h3, h4, h5⟩ := lock_release_spec 0 stateRel 0 1 (by decide) (by decide)
  refine ⟨?_, ?_, h4, ?_⟩
  · rw [h1]; decide
  · rw [h3 (by decide)]; decide
  · rw [h5]; decide

/-! ## Lock acquire postcondition (claim C10) -/

theorem clear_holder_wait_eq (s : KState) (lid : Lid) (h2 : Tid)
    (hh : (s.locks lid).holder = some h2) :
    clear_holder_wait s lid = setWaitOnLock s h2 none := by
  unfold clear_holder_wait
  rw [hh]

theorem lock_try_acquire_fst (s : KState) (lid : Lid) (cur : Tid) :
    (lock_try_acquire s lid cur).1 = true ↔ 0 < (s.locks lid).semaphore.value := by
  by_cases hv : 0 < (s.locks lid).semaphore.value <;>
    simp [lock_try_acquire, sema_try_down, hv]

theorem lock_try_acquire_success_holder (s : KState) (lid : Lid) (cur : Tid)
    (h : (lock_try_acquire s lid cur).1 = true) :
    ((lock_try_acquire s lid cur).2.locks lid).holder = some cur := by
  have hv : 0 < (s.locks lid).semaphore.value := (lock_try_acquire_fst s lid cur).mp h
  have hs : sema_try_down (s.locks lid).semaphore =
      (true, { (s.locks lid).semaphore with value := (s.locks lid).semaphore.value - 1 }) := by
    simp [sema_try_down, hv]
  simp [lock_try_acquire, hs, setLock_locks_same]

theorem acquire_tail_post (s : KState) (lid : Lid) (cur : Tid) :
    ((clear_holder_wait (setLock s lid { s.locks lid with holder := some cur }) lid).locks
        lid).holder = some cur ∧
    ((clear_holder_wait (setLock s lid { s.locks lid with holder := some cur }) lid).threads
        cur).wait_on_lock = none := by
  have hS : ((setLock s lid { s.locks lid with holder := some cur }).locks lid).holder =
      some cur := by
    rw [setLock_locks_same]
  rw [clear_holder_wait_eq _ lid cur hS]
  constructor
  · rw [setWaitOnLock_locks, setLock_locks_same]
  · rw [setWaitOnLock_threads_same]

/-- C10: whenever `lock_acquire` returns, the lock's holder is the calling
thread and the calling thread's `wait_on_lock` is none; on the uncontended
fast path (the underlying value was positive, so `lock_try_acquire`
succeeded and the thread never blocked) the whole call amounts to the
try-acquire followed by the final write that overwrites the caller's
`wait_on_lock` with none — even though `lock_acquire` never set it on that
path. -/
theorem lock_acquire_post (fuel : Nat) (mlfqs : Bool) (wake : KState → KState)
    (s : KState) (lid : Lid) (cur : Tid) :
    ((lock_acquire fuel mlfqs wake s lid cur).locks lid).holder = some cur ∧
    ((lock_acquire fuel mlfqs wake s lid cur).threads cur).wait_on_lock = none ∧
    (0 < (s.locks lid).semaphore.value →
      lock_acquire fuel mlfqs wake s lid cur =
        setWaitOnLock (lock_try_acquire s lid cur).2 cur none) := by
  cases hr : (lock_try_acquire s lid cur).1 with
  | true =>
      have hHold := lock_try_acquire_success_holder s lid cur hr
      have hacq : lock_acquire fuel mlfqs wake s lid cur =
          clear_holder_wait (lock_try_acquire s lid cur).2 lid := by
        simp [lock_acquire, hr]
      rw [hacq, clear_holder_wait_eq _ lid cur hHold]
      refine ⟨?_, ?_, fun _ => rfl⟩
      · rw [setWaitOnLock_locks]
        exact hHold
      · rw [setWaitOnLock_threads_same]
  | false =>
      refine ⟨?_, ?_, ?_⟩
      · simp only [lock_acquire, hr, Bool.false_eq_true, if_false]
        exact (acquire_tail_post _ lid cur).1
      · simp only [lock_acquire, hr, Bool.false_eq_true, if_false]
        exact (acquire_tail_post _ lid cur).2
      · intro hv
        rw [← lock_try_acquire_fst s lid cur] at hv
        rw [hr] at hv
        exact absurd hv (by simp)

/-- Witness for C10 at a concrete input: in `stateAcq`, lock 0 is free and
thread 5 carries a stale `wait_on_lock` pointing at lock 7; after
`lock_acquire` thread 5 is the holder, its `wait_on_lock` has been
overwritten with none, and the call equals try-acquire plus that final
write. -/
theorem lock_acquire_post_witness :
    ((lock_acquire 1 false id stateAcq 0 5).locks 0).holder = some 5 ∧
    ((lock_acquire 1 false id stateAcq 0 5).threads 5).wait_on_lock = none ∧
    lock_acquire 1 false id stateAcq 0 5 = setWaitOnLock (lock_try_acquire stateAcq 0 5).2 5 none :=
  ⟨(lock_acquire_post 1 false id stateAcq 0 5).1,
   (lock_acquire_post 1 false id stateAcq 0 5).2.1,
   (lock_acquire_post 1 false id stateAcq 0 5).2.2 (by decide)⟩

end Synch
